import Mathlib

/-!
The HTTP layer of `main.go` of go-cmdb-v1.

A shallow embedding of the request handlers, the two middlewares and the
route table of `main.go`, together with a small model of the parts of the
gin framework they call (`Context.Set`, `Get`, `GetHeader`, `JSON`, `Abort`,
`Next`, `RouterGroup.Group` and the route registration methods).
-/

namespace Cmdb

/-! ## Values -/

/-- Go values that the handlers store in the context or put into a `gin.H`
literal: integers, strings, `gin.H` objects (fields in source order) and
slices. -/
inductive Value where
  | int : Int → Value
  | str : String → Value
  | obj : List (String × Value) → Value
  | arr : List Value → Value

/-- Field `k` of a `gin.H` object, `none` when the value is no object or has
no such field. -/
def Value.field (k : String) : Value → Option Value
  | .obj fs => fs.lookup k
  | _ => none

/-- Elements of a slice value, `[]` for any other value. -/
def Value.items : Value → List Value
  | .arr xs => xs
  | _ => []

/-! ## The gin context -/

/-- What a handler has written to the response writer with one call. -/
inductive Response where
  | json (status : Nat) (body : Value)
  | html (status : Nat) (template : String) (data : Value)
  | redirect (status : Nat) (location : String)

/-- The incoming request as far as handlers can read it. -/
structure Request where
  method : String
  path : String
  header : List (String × String)
  params : List (String × String)
  body : String

/-- The fields of `gin.Context` the handlers act on: the request, the
`Keys` map, the handler index and the response writes so far. -/
structure Context where
  request : Request
  keys : List (String × Value)
  index : Int
  written : List Response

/-- The state a handler runs in: its `*gin.Context`, the package variable
`DB` (the data source name of the open connection, if any) and the lines
printed through package `log`. -/
structure World where
  ctx : Context
  DB : Option String
  logged : List String

/-- HTTP status codes used by the source. -/
def StatusOK : Nat := 200
/-- Status 302. -/
def StatusFound : Nat := 302
/-- Status 403. -/
def StatusForbidden : Nat := 403

/-- The index gin gives an aborted context (`math.MaxInt8 >> 1`). -/
def abortIndex : Int := 63

/-- Model of `c.GetHeader(key)`: the first value stored under the key, `""`
when there is none. Header names are kept in their canonical form. -/
def World.GetHeader (w : World) (key : String) : String :=
  (w.ctx.request.header.lookup key).getD ""

/-- Model of `c.Set(key, value)`: `c.Keys[key] = value`. -/
def World.Set (w : World) (key : String) (value : Value) : World :=
  { w with ctx := { w.ctx with keys := (key, value) :: w.ctx.keys.filter (fun kv => kv.1 != key) } }

/-- Model of `c.Get(key)`: the value and whether it exists, as an option. -/
def World.Get (w : World) (key : String) : Option Value :=
  w.ctx.keys.lookup key

/-- Model of `c.JSON(code, obj)`: one more write to the response. -/
def World.JSON (w : World) (code : Nat) (body : Value) : World :=
  { w with ctx := { w.ctx with written := w.ctx.written ++ [Response.json code body] } }

/-- Model of `c.Abort()`: no pending handler will run. -/
def World.Abort (w : World) : World :=
  { w with ctx := { w.ctx with index := abortIndex } }

/-- Model of `log.Println(msg)`. -/
def World.Println (w : World) (msg : String) : World :=
  { w with logged := w.logged ++ [msg] }

/-- Whether `c.IsAborted()` holds. -/
def World.IsAborted (w : World) : Prop :=
  abortIndex ≤ w.ctx.index

/-- The step `c.index++`. -/
def World.bump (w : World) : World :=
  { w with ctx := { w.ctx with index := w.ctx.index + 1 } }

/-- A `gin.HandlerFunc`. Its first argument is what `c.Next()` does when the
handler calls it; the result is `none` when the handler panics. -/
abbrev HandlerFunc := (World → Option World) → World → Option World

/-- The loop of `c.Next()`, `for c.index < len(c.handlers)` running
`c.handlers[c.index](c)` and then `c.index++`, over the handlers `hs` that
sit at the positions `i`, `i+1`, ... of the chain. A handler that calls
`c.Next()` gets `c.index++` followed by the same loop. The handler at position
`i` runs when the index is `i`; a position that the index has passed (after a
nested `c.Next()` or `c.Abort()`) is skipped. `Next` and `Abort` are the only
ways the source moves the index, and both move it forward. -/
def runFrom : List HandlerFunc → Int → World → Option World
  | [], _, w => some w
  | h :: rest, i, w =>
    if w.ctx.index = i then
      match h (fun w1 => runFrom rest (i + 1) w1.bump) w with
      | none => none
      | some w2 => runFrom rest (i + 1) w2.bump
    else runFrom rest (i + 1) w

/-- A context as `c.reset()` leaves it before a request is handled. -/
def newContext (req : Request) : Context :=
  { request := req, keys := [], index := -1, written := [] }

/-- The state of the engine when it starts on a request: the context is
reset and `c.Next()` has stepped the index to the first handler. The package
state `db`, `logged` is what earlier requests left. -/
def startWorld (db : Option String) (logged : List String) (req : Request) : World :=
  World.bump { ctx := newContext req, DB := db, logged := logged }

/-- Serving one request with the handler chain `hs`: the engine resets the
context and calls `c.Next()`. -/
def serve (hs : List HandlerFunc) (db : Option String) (logged : List String)
    (req : Request) : Option World :=
  runFrom hs 0 (startWorld db logged req)

/-! ## Middlewares (`main.go`, lines 276-315) -/

/-- Embedding of `authMiddleware`. -/
def authMiddleware : HandlerFunc := fun next w =>
  let token := w.GetHeader "Authorization"
  let w := if token = "" then w.Println "演示模式：自动登录为管理员用户" else w
  let w := w.Set "user_id" (Value.int 1)
  let w := w.Set "username" (Value.str "admin")
  next w

/-- The body of the 403 answer of `adminMiddleware`. -/
def forbiddenBody : Value :=
  Value.obj [("error", Value.str "Forbidden"), ("message", Value.str "没有权限执行此操作")]

/-- Embedding of `adminMiddleware`. The type assertion `userID.(int)` panics
on a value of another type; `||` evaluates it only when the key exists. -/
def adminMiddleware : HandlerFunc := fun next w =>
  match w.Get "user_id" with
  | none => some (w.JSON StatusForbidden forbiddenBody).Abort
  | some (Value.int n) =>
    if n ≠ 1 then some (w.JSON StatusForbidden forbiddenBody).Abort
    else next w
  | some _ => none

/-! ## Handlers (`main.go`, lines 357-385 and 571-578) -/

/-- The `gin.H` literal that `handleGetDashboardData` sends. -/
def dashboardData : Value :=
  Value.obj [
    ("device_count", Value.int 128),
    ("idc_count", Value.int 3),
    ("cabinet_count", Value.int 56),
    ("user_count", Value.int 25),
    ("online_devices", Value.int 112),
    ("offline_devices", Value.int 16),
    ("alerts", Value.int 0),
    ("device_types", Value.arr [
      Value.obj [("type", Value.str "服务器"), ("count", Value.int 85)],
      Value.obj [("type", Value.str "网络设备"), ("count", Value.int 23)],
      Value.obj [("type", Value.str "存储设备"), ("count", Value.int 12)],
      Value.obj [("type", Value.str "其他"), ("count", Value.int 8)]]),
    ("ip_usage", Value.arr [
      Value.obj [("subnet", Value.str "192.168.1.0/24"), ("total", Value.int 254),
        ("used", Value.int 128), ("free", Value.int 126)],
      Value.obj [("subnet", Value.str "192.168.2.0/24"), ("total", Value.int 254),
        ("used", Value.int 95), ("free", Value.int 159)],
      Value.obj [("subnet", Value.str "192.168.3.0/24"), ("total", Value.int 254),
        ("used", Value.int 230), ("free", Value.int 24)]]),
    ("recent_activities", Value.arr [
      Value.obj [("id", Value.int 1), ("type", Value.str "login"), ("user", Value.str "admin"),
        ("message", Value.str "管理员登录系统"), ("time", Value.str "2024-01-15 10:30:00")],
      Value.obj [("id", Value.int 2), ("type", Value.str "create"), ("user", Value.str "admin"),
        ("message", Value.str "新增设备服务器-001"), ("time", Value.str "2024-01-15 10:15:00")],
      Value.obj [("id", Value.int 3), ("type", Value.str "update"), ("user", Value.str "operator"),
        ("message", Value.str "更新设备状态"), ("time", Value.str "2024-01-15 09:45:00")],
      Value.obj [("id", Value.int 4), ("type", Value.str "login"), ("user", Value.str "operator"),
        ("message", Value.str "操作员登录系统"), ("time", Value.str "2024-01-15 09:30:00")]])]

/-- Embedding of `handleGetDashboardData`. -/
def handleGetDashboardData : HandlerFunc := fun _ w =>
  some (w.JSON StatusOK dashboardData)

/-- Embedding of `handleAllocateIPAddress`. -/
def handleAllocateIPAddress : HandlerFunc := fun _ w =>
  some (w.JSON StatusOK (Value.obj [("message", Value.str "分配成功")]))

/-- Embedding of `handleReleaseIPAddress`. -/
def handleReleaseIPAddress : HandlerFunc := fun _ w =>
  some (w.JSON StatusOK (Value.obj [("message", Value.str "释放成功")]))

/-- Embedding of `handleGetIPUsage`: the literal is the empty `gin.H{}`. -/
def handleGetIPUsage : HandlerFunc := fun _ w =>
  some (w.JSON StatusOK (Value.obj []))

/-- Embedding of `handleListUsers`. -/
def handleListUsers : HandlerFunc := fun _ w =>
  some (w.JSON StatusOK (Value.obj [("total", Value.int 0), ("data", Value.arr [])]))

/-- The last JSON write of a finished request, as status and body. -/
def lastJSON (w : World) : Option (Nat × Value) :=
  match w.ctx.written.getLast? with
  | some (Response.json code body) => some (code, body)
  | _ => none

/-- The entries of the `ip_usage` list in a dashboard body. -/
def ipUsageEntries (body : Value) : List Value :=
  ((body.field "ip_usage").getD (Value.arr [])).items

/-- The integer under field `k` of an entry. -/
def Value.intField (k : String) (v : Value) : Option Int :=
  match v.field k with
  | some (Value.int n) => some n
  | _ => none

/-- The string under field `k` of an entry. -/
def Value.strField (k : String) (v : Value) : Option String :=
  match v.field k with
  | some (Value.str s) => some s
  | _ => none

/-- Decimal value of a list of digit characters, `none` when the list is
empty or holds a character that is no digit. -/
def parseDecimal (cs : List Char) : Option Nat :=
  if cs = [] then none
  else cs.foldl (fun acc c =>
    match acc with
    | none => none
    | some n => if c.isDigit then some (n * 10 + (c.toNat - 48)) else none) (some 0)

/-- The characters after the first `/` of a list, `none` when it has no `/`. -/
def afterSlash : List Char → Option (List Char)
  | [] => none
  | c :: cs => if c = '/' then some cs else afterSlash cs

/-- The prefix length of a CIDR string such as `192.168.1.0/24`. -/
def cidrPrefixLen (s : String) : Option Nat :=
  match afterSlash s.data with
  | none => none
  | some ds => parseDecimal ds

/-! ## Routes (`main.go`, lines 79-273) -/

/-- The named functions of `main.go` that `setupRoutes` registers. -/
inductive Func where
  | authMiddleware | adminMiddleware
  | handleLogin | handleLogout | handleGetCurrentUser
  | handleGetDashboardData
  | handleListDevices | handleSearchDevices | handleGetDevice
  | handleCreateDevice | handleUpdateDevice | handleDeleteDevice
  | handleListIDCs | handleGetIDC | handleCreateIDC | handleUpdateIDC | handleDeleteIDC
  | handleListCabinets | handleGetCabinet | handleCreateCabinet
  | handleUpdateCabinet | handleDeleteCabinet
  | handleListSubnets | handleGetSubnet | handleCreateSubnet
  | handleUpdateSubnet | handleDeleteSubnet
  | handleListIPAddresses | handleGetIPAddress | handleCreateIPAddress
  | handleUpdateIPAddress | handleDeleteIPAddress
  | handleAllocateIPAddress | handleReleaseIPAddress
  | handleGetAssetSummary | handleGetAssetTypeDistribution | handleGetIDCStatistics
  | handleGetCabinetUsage | handleGetIPUsage | handleGetMaintenanceReport
  | handleExportReport
  | handleListUsers | handleGetUser | handleCreateUser | handleUpdateUser | handleDeleteUser
  | handleListRoles | handleGetRole | handleCreateRole | handleUpdateRole | handleDeleteRole
  | handleGetSettings | handleUpdateSettings
  | handleListSystemLogs
  deriving DecidableEq, Repr

/-- A handler in a chain of the route table: a named function `fn`, the
value of a call `authMiddleware()` or `adminMiddleware()` included; an
anonymous page handler, named after what it sends; `external`, a handler
that a library supplies (the engine middleware of `main`); `staticFiles`,
the file handler that `router.Static` creates. -/
inductive HandlerId where
  | external (name : String)
  | staticFiles (root : String)
  | redirectTo (location : String)
  | page (template : String)
  | fn (f : Func)
  deriving DecidableEq, Repr

/-- One entry of the engine's route table. -/
structure Route where
  method : String
  path : String
  handlers : List HandlerId
  deriving DecidableEq, Repr

/-- A `gin.RouterGroup`: the path of the group and its middleware. -/
structure RouterGroup where
  basePath : String
  Handlers : List HandlerId

/-- The non-empty pieces between the `/` of a path; `cur` holds the piece
being read, in reverse. -/
def pathSegments : List Char → List Char → List (List Char)
  | [], cur => if cur.isEmpty then [] else [cur.reverse]
  | c :: cs, cur =>
    if c = '/' then
      (if cur.isEmpty then pathSegments cs [] else cur.reverse :: pathSegments cs [])
    else pathSegments cs (c :: cur)

/-- Model of Go's `path.Join(a, b)` for a rooted `a` and elements without
`.` or `..`: the pieces of both, each after one `/`, or `/` alone. -/
def pathJoin (a b : String) : String :=
  match pathSegments (a.data ++ '/' :: b.data) [] with
  | [] => "/"
  | segs => String.mk (segs.foldr (fun seg acc => '/' :: seg ++ acc) [])

/-- Model of gin's `joinPaths`: `path.Join`, keeping a trailing `/` of the
relative path. -/
def joinPaths (absolutePath relativePath : String) : String :=
  if relativePath = "" then absolutePath
  else
    let finalPath := pathJoin absolutePath relativePath
    if relativePath.data.getLast? = some '/' ∧ finalPath.data.getLast? ≠ some '/' then
      finalPath ++ "/"
    else finalPath

/-- Model of `group.Group(relativePath, handlers...)`. -/
def RouterGroup.Group (g : RouterGroup) (relativePath : String)
    (handlers : List HandlerId) : RouterGroup :=
  { basePath := joinPaths g.basePath relativePath, Handlers := g.Handlers ++ handlers }

/-- Model of `group.handle(httpMethod, relativePath, handlers)`: the route
that is added to the engine. -/
def RouterGroup.handle (g : RouterGroup) (httpMethod relativePath : String)
    (handlers : List HandlerId) : Route :=
  { method := httpMethod, path := joinPaths g.basePath relativePath,
    handlers := g.Handlers ++ handlers }

/-- Model of `group.GET`. -/
def RouterGroup.GET (g : RouterGroup) (p : String) (hs : List HandlerId) : Route :=
  g.handle "GET" p hs
/-- Model of `group.POST`. -/
def RouterGroup.POST (g : RouterGroup) (p : String) (hs : List HandlerId) : Route :=
  g.handle "POST" p hs
/-- Model of `group.PUT`. -/
def RouterGroup.PUT (g : RouterGroup) (p : String) (hs : List HandlerId) : Route :=
  g.handle "PUT" p hs
/-- Model of `group.DELETE`. -/
def RouterGroup.DELETE (g : RouterGroup) (p : String) (hs : List HandlerId) : Route :=
  g.handle "DELETE" p hs
/-- Model of `group.HEAD`. -/
def RouterGroup.HEAD (g : RouterGroup) (p : String) (hs : List HandlerId) : Route :=
  g.handle "HEAD" p hs

/-- Model of `group.Static(relativePath, root)`: a `GET` and a `HEAD` route
on `relativePath/*filepath` with the file handler. -/
def RouterGroup.Static (g : RouterGroup) (relativePath root : String) : List Route :=
  let urlPattern := pathJoin relativePath "/*filepath"
  [g.GET urlPattern [HandlerId.staticFiles root], g.HEAD urlPattern [HandlerId.staticFiles root]]

/-- Embedding of `setupRoutes`: the routes it adds to the engine, in the
order of registration. `router` is the engine's root group, with the
middleware that `main` installed before the call. -/
def setupRoutes (router : RouterGroup) : List Route :=
  let auth := HandlerId.fn Func.authMiddleware
  let admin := HandlerId.fn Func.adminMiddleware
  let api := router.Group "/api" []
  let authGroup := api.Group "/auth" []
  let dashboard := api.Group "/dashboard" [auth]
  let devices := api.Group "/devices" [auth]
  let idcs := api.Group "/idcs" [auth]
  let cabinets := api.Group "/cabinets" [auth]
  let subnets := api.Group "/subnets" [auth]
  let ipPool := api.Group "/ip-pool" [auth]
  let reports := api.Group "/reports" [auth]
  let users := api.Group "/users" [auth, admin]
  let roles := api.Group "/roles" [auth, admin]
  let settings := api.Group "/settings" [auth]
  let logs := api.Group "/logs" [auth, admin]
  router.Static "/static" "./static" ++
  [ router.GET "/" [HandlerId.redirectTo "/dashboard"],
    router.GET "/login" [HandlerId.page "login.html"],
    router.GET "/dashboard" [auth, HandlerId.page "dashboard.html"],
    router.GET "/asset-management" [auth, HandlerId.page "asset_management.html"],
    router.GET "/idc-cabinet-management" [auth, HandlerId.page "idc_cabinet_management.html"],
    router.GET "/ip-management" [auth, HandlerId.page "ip_management.html"],
    router.GET "/report-management" [auth, HandlerId.page "report_management.html"],
    router.GET "/system-management" [auth, HandlerId.page "system_management.html"],
    authGroup.POST "/login" [HandlerId.fn Func.handleLogin],
    authGroup.POST "/logout" [HandlerId.fn Func.handleLogout],
    authGroup.GET "/me" [auth, HandlerId.fn Func.handleGetCurrentUser],
    dashboard.GET "/data" [HandlerId.fn Func.handleGetDashboardData],
    devices.GET "/" [HandlerId.fn Func.handleListDevices],
    devices.GET "/search" [HandlerId.fn Func.handleSearchDevices],
    devices.GET "/:id" [HandlerId.fn Func.handleGetDevice],
    devices.POST "/" [HandlerId.fn Func.handleCreateDevice],
    devices.PUT "/:id" [HandlerId.fn Func.handleUpdateDevice],
    devices.DELETE "/:id" [HandlerId.fn Func.handleDeleteDevice],
    idcs.GET "/" [HandlerId.fn Func.handleListIDCs],
    idcs.GET "/:id" [HandlerId.fn Func.handleGetIDC],
    idcs.POST "/" [HandlerId.fn Func.handleCreateIDC],
    idcs.PUT "/:id" [HandlerId.fn Func.handleUpdateIDC],
    idcs.DELETE "/:id" [HandlerId.fn Func.handleDeleteIDC],
    cabinets.GET "/" [HandlerId.fn Func.handleListCabinets],
    cabinets.GET "/:id" [HandlerId.fn Func.handleGetCabinet],
    cabinets.POST "/" [HandlerId.fn Func.handleCreateCabinet],
    cabinets.PUT "/:id" [HandlerId.fn Func.handleUpdateCabinet],
    cabinets.DELETE "/:id" [HandlerId.fn Func.handleDeleteCabinet],
    subnets.GET "/" [HandlerId.fn Func.handleListSubnets],
    subnets.GET "/:id" [HandlerId.fn Func.handleGetSubnet],
    subnets.POST "/" [HandlerId.fn Func.handleCreateSubnet],
    subnets.PUT "/:id" [HandlerId.fn Func.handleUpdateSubnet],
    subnets.DELETE "/:id" [HandlerId.fn Func.handleDeleteSubnet],
    ipPool.GET "/" [HandlerId.fn Func.handleListIPAddresses],
    ipPool.GET "/:id" [HandlerId.fn Func.handleGetIPAddress],
    ipPool.POST "/" [HandlerId.fn Func.handleCreateIPAddress],
    ipPool.PUT "/:id" [HandlerId.fn Func.handleUpdateIPAddress],
    ipPool.DELETE "/:id" [HandlerId.fn Func.handleDeleteIPAddress],
    ipPool.PUT "/:id/allocate" [HandlerId.fn Func.handleAllocateIPAddress],
    ipPool.PUT "/:id/release" [HandlerId.fn Func.handleReleaseIPAddress],
    reports.GET "/summary" [HandlerId.fn Func.handleGetAssetSummary],
    reports.GET "/type-distribution" [HandlerId.fn Func.handleGetAssetTypeDistribution],
    reports.GET "/idc-stats" [HandlerId.fn Func.handleGetIDCStatistics],
    reports.GET "/cabinet-usage" [HandlerId.fn Func.handleGetCabinetUsage],
    reports.GET "/ip-usage" [HandlerId.fn Func.handleGetIPUsage],
    reports.GET "/maintenance" [HandlerId.fn Func.handleGetMaintenanceReport],
    reports.GET "/export" [HandlerId.fn Func.handleExportReport],
    users.GET "/" [HandlerId.fn Func.handleListUsers],
    users.GET "/:id" [HandlerId.fn Func.handleGetUser],
    users.POST "/" [HandlerId.fn Func.handleCreateUser],
    users.PUT "/:id" [HandlerId.fn Func.handleUpdateUser],
    users.DELETE "/:id" [HandlerId.fn Func.handleDeleteUser],
    roles.GET "/" [HandlerId.fn Func.handleListRoles],
    roles.GET "/:id" [HandlerId.fn Func.handleGetRole],
    roles.POST "/" [HandlerId.fn Func.handleCreateRole],
    roles.PUT "/:id" [HandlerId.fn Func.handleUpdateRole],
    roles.DELETE "/:id" [HandlerId.fn Func.handleDeleteRole],
    settings.GET "/" [HandlerId.fn Func.handleGetSettings],
    settings.PUT "/" [HandlerId.fn Func.handleUpdateSettings],
    logs.GET "/" [HandlerId.fn Func.handleListSystemLogs] ]

/-- The root group of the engine that `main` builds: `gin.Default()` brings
the logger and the recovery middleware, `router.Use` adds CORS. -/
def mainRouter : RouterGroup :=
  { basePath := "/",
    Handlers := [HandlerId.external "gin.Logger", HandlerId.external "gin.Recovery",
      HandlerId.external "cors"] }

/-- The root group of an engine with the middleware `engine`. -/
def rootGroup (engine : List HandlerId) : RouterGroup :=
  { basePath := "/", Handlers := engine }

/-- The chain registered for a method and a route pattern. -/
def chainOf (routes : List Route) (method path : String) : Option (List HandlerId) :=
  (routes.find? (fun r => r.method = method ∧ r.path = path)).map Route.handlers

/-- A route that `setupRoutes` leaves open on purpose: the root redirect,
the login page, the login and logout calls, and the static files. -/
def Route.isPublic (r : Route) : Prop :=
  (r.method = "GET" ∧ r.path = "/") ∨ (r.method = "GET" ∧ r.path = "/login") ∨
  (r.method = "POST" ∧ r.path = "/api/auth/login") ∨
  (r.method = "POST" ∧ r.path = "/api/auth/logout") ∨
  "/static".data <+: r.path.data

/-- A route under one of the groups `/api/users`, `/api/roles`, `/api/logs`. -/
def Route.isAdminArea (r : Route) : Prop :=
  "/api/users".data <+: r.path.data ∨ "/api/roles".data <+: r.path.data ∨
  "/api/logs".data <+: r.path.data

instance (r : Route) : Decidable r.isPublic := by
  unfold Route.isPublic; infer_instance

instance (r : Route) : Decidable r.isAdminArea := by
  unfold Route.isAdminArea; infer_instance

/-- The chain `hs` runs `a` at some position before its last handler. -/
def RunsBeforeFinal (a : HandlerId) (hs : List HandlerId) : Prop :=
  ∃ pre mid final, hs = pre ++ a :: (mid ++ [final])

/-- The chain `hs` runs `a`, later `b`, and both before its last handler. -/
def RunsInOrderBeforeFinal (a b : HandlerId) (hs : List HandlerId) : Prop :=
  ∃ pre mid post final, hs = pre ++ a :: (mid ++ b :: (post ++ [final]))

/-! ## Values used in the statements -/

/-- The identity a context carries: its `user_id` and `username` entries. -/
def identity (w : World) : Option Value × Option Value :=
  (w.Get "user_id", w.Get "username")

/-- The context that `authMiddleware` hands to `c.Next()`. -/
def afterAuth (w : World) : World :=
  ((if w.GetHeader "Authorization" = "" then
      w.Println "演示模式：自动登录为管理员用户" else w).Set
    "user_id" (Value.int 1)).Set "username" (Value.str "admin")

/-- The 403 outcome of `adminMiddleware` on `w`. -/
def forbidden (w : World) : World :=
  (w.JSON StatusForbidden forbiddenBody).Abort

/-- A handler that never moves the index of the context backwards. -/
def KeepsIndex (h : HandlerFunc) : Prop :=
  ∀ next w w', h next w = some w' → w.ctx.index ≤ w'.ctx.index

/-- A request without headers, parameters or body. -/
def plainRequest (method path : String) : Request :=
  { method := method, path := path, header := [], params := [], body := "" }

/-- A context outside any chain with the given `Keys`. -/
def worldWithKeys (keys : List (String × Value)) : World :=
  { ctx := { request := plainRequest "GET" "/api/users/", keys := keys, index := 1,
             written := [] },
    DB := none, logged := [] }

/-- The request `PUT /api/ip-pool/<id>/release`. -/
def releaseRequest (id : String) : Request :=
  { method := "PUT", path := "/api/ip-pool/" ++ id ++ "/release", header := [],
    params := [("id", id)], body := "" }

/-- A route of a bare engine as the same route of an engine with the
middleware `engine`. -/
def Route.behind (engine : List HandlerId) (r : Route) : Route :=
  { r with handlers := engine ++ r.handlers }

/-- Decision procedure for `RunsBeforeFinal`. -/
def runsBeforeFinalB (a : HandlerId) : List HandlerId → Bool
  | [] => false
  | x :: rest => (x == a && !rest.isEmpty) || runsBeforeFinalB a rest

/-- Decision procedure for `RunsInOrderBeforeFinal`. -/
def runsInOrderB (a b : HandlerId) : List HandlerId → Bool
  | [] => false
  | x :: rest => (x == a && runsBeforeFinalB b rest) || runsInOrderB a b rest

/-! ## Lemmas on the context model -/

theorem get_set_same (w : World) (k : String) (v : Value) :
    (w.Set k v).Get k = some v := by
  simp [World.Set, World.Get, List.lookup]

theorem get_set_other (w : World) (k k' : String) (v v' : Value) (h : k ≠ k') :
    ((w.Set k v).Set k' v').Get k = some v := by
  have h' : (k == k') = false := by simpa using h
  simp [World.Set, World.Get, List.lookup, h', h]

theorem get_bump (w : World) (k : String) : w.bump.Get k = w.Get k := rfl

theorem authMiddleware_eq (next : World → Option World) (w : World) :
    authMiddleware next w = next (afterAuth w) := rfl

theorem afterAuth_ctx (w : World) :
    (afterAuth w).ctx.index = w.ctx.index ∧ (afterAuth w).ctx.written = w.ctx.written ∧
    (afterAuth w).ctx.request = w.ctx.request ∧ (afterAuth w).DB = w.DB := by
  unfold afterAuth
  split <;> exact ⟨rfl, rfl, rfl, rfl⟩

theorem afterAuth_user_id (w : World) : (afterAuth w).Get "user_id" = some (Value.int 1) :=
  get_set_other _ _ _ _ _ (by decide)

theorem afterAuth_username (w : World) :
    (afterAuth w).Get "username" = some (Value.str "admin") :=
  get_set_same _ _ _

/-- After `authMiddleware`, `adminMiddleware` finds `user_id` to be the
integer 1 and calls `c.Next()`. -/
theorem admin_after_auth (next : World → Option World) (w : World) :
    authMiddleware (adminMiddleware next) w = authMiddleware next w := by
  rw [authMiddleware_eq, authMiddleware_eq]
  simp [adminMiddleware, afterAuth_user_id]

theorem lastJSON_JSON (w : World) (code : Nat) (body : Value) :
    lastJSON (w.JSON code body) = some (code, body) := by
  simp [lastJSON, World.JSON]

/-! ## Lemmas on handler chains -/

/-- Handlers at positions the index has passed do not run. -/
theorem runFrom_passed (hs : List HandlerFunc) :
    ∀ (i : Int) (w : World), i + hs.length ≤ w.ctx.index → runFrom hs i w = some w := by
  induction hs with
  | nil => intro i w _; rfl
  | cons h rest ih =>
    intro i w hle
    have hlen : ((h :: rest).length : Int) = rest.length + 1 := by simp
    have hne : w.ctx.index ≠ i := by omega
    rw [runFrom, if_neg hne]
    exact ih (i + 1) w (by omega)

/-- The last handler of a chain runs with a `c.Next()` that only steps the
index. -/
theorem runFrom_last (final : HandlerFunc) (i : Int) (w : World) (hi : w.ctx.index = i) :
    runFrom [final] i w = (final (fun w1 => some w1.bump) w).map World.bump := by
  rw [runFrom, if_pos hi]
  simp only [runFrom]
  cases final (fun w1 => some w1.bump) w <;> rfl

/-- A handler that does its work and then calls `c.Next()`: the rest of the
chain runs once, from the context the handler passes on. -/
theorem runFrom_through (h : HandlerFunc) (rest : List HandlerFunc) (i : Int) (w w' : World)
    (hi : w.ctx.index = i) (hh : ∀ next, h next w = next w')
    (hr : ∀ wr, runFrom rest (i + 1) w'.bump = some wr → i + 1 + rest.length ≤ wr.ctx.index + 1) :
    runFrom (h :: rest) i w = (runFrom rest (i + 1) w'.bump).map World.bump := by
  rw [runFrom, if_pos hi, hh]
  cases hf : runFrom rest (i + 1) w'.bump with
  | none => rfl
  | some wr =>
    have hk := hr wr hf
    simp only [Option.map_some']
    apply runFrom_passed
    simp only [World.bump]
    omega

/-- Serving the chain `authMiddleware`, `final`. -/
theorem serve_auth_final (final : HandlerFunc) (hfinal : KeepsIndex final)
    (db : Option String) (logged : List String) (req : Request) :
    serve [authMiddleware, final] db logged req =
      (final (fun w1 => some w1.bump) (afterAuth (startWorld db logged req)).bump).map
        (fun w' => w'.bump.bump) := by
  have h0 : (startWorld db logged req).ctx.index = 0 := rfl
  have ha : (afterAuth (startWorld db logged req)).ctx.index = 0 := by
    rw [(afterAuth_ctx _).1, h0]
  have h1 : (afterAuth (startWorld db logged req)).bump.ctx.index = 0 + 1 := by
    simp [World.bump, ha]
  show runFrom [authMiddleware, final] 0 (startWorld db logged req) = _
  rw [runFrom_through authMiddleware [final] 0 _ (afterAuth (startWorld db logged req)) h0
    (fun next => authMiddleware_eq next _), runFrom_last final (0 + 1) _ h1, Option.map_map]
  · rfl
  · intro wr hwr
    rw [runFrom_last final (0 + 1) _ h1] at hwr
    cases hf : final (fun w1 => some w1.bump) (afterAuth (startWorld db logged req)).bump with
    | none => rw [hf] at hwr; cases hwr
    | some wc =>
      rw [hf] at hwr
      have hk := hfinal _ _ _ hf
      have : wr = wc.bump := (Option.some.inj hwr).symm
      subst this
      simp [World.bump] at hk ⊢
      omega

/-- Serving the chain `authMiddleware`, `adminMiddleware`, `final`. -/
theorem serve_auth_admin_final (final : HandlerFunc) (hfinal : KeepsIndex final)
    (db : Option String) (logged : List String) (req : Request) :
    serve [authMiddleware, adminMiddleware, final] db logged req =
      (final (fun w1 => some w1.bump) (afterAuth (startWorld db logged req)).bump.bump).map
        (fun w' => w'.bump.bump.bump) := by
  have h0 : (startWorld db logged req).ctx.index = 0 := rfl
  have ha : (afterAuth (startWorld db logged req)).ctx.index = 0 := by
    rw [(afterAuth_ctx _).1, h0]
  generalize afterAuth_user_id (startWorld db logged req) = hget
  have hstep : ∀ next, authMiddleware next (startWorld db logged req) =
      next (afterAuth (startWorld db logged req)) := fun next => authMiddleware_eq next _
  generalize afterAuth (startWorld db logged req) = wa at ha hget hstep
  have h1 : wa.bump.ctx.index = 0 + 1 := by simp [World.bump, ha]
  have h2 : wa.bump.bump.ctx.index = 0 + 1 + 1 := by simp [World.bump, ha]
  have hadm : ∀ next, adminMiddleware next wa.bump = next wa.bump := by
    intro next
    have : wa.bump.Get "user_id" = some (Value.int 1) := by rw [get_bump]; exact hget
    simp [adminMiddleware, this]
  have hlast := runFrom_last final (0 + 1 + 1) wa.bump.bump h2
  have hmid : runFrom [adminMiddleware, final] (0 + 1) wa.bump =
      (final (fun w1 => some w1.bump) wa.bump.bump).map (fun w' => w'.bump.bump) := by
    rw [runFrom_through adminMiddleware [final] (0 + 1) _ wa.bump h1 hadm, hlast, Option.map_map]
    · rfl
    · intro wr hwr
      rw [hlast] at hwr
      cases hf : final (fun w1 => some w1.bump) wa.bump.bump with
      | none => rw [hf] at hwr; cases hwr
      | some wc =>
        rw [hf] at hwr
        have hk := hfinal _ _ _ hf
        have : wr = wc.bump := (Option.some.inj hwr).symm
        subst this
        simp [World.bump] at hk ⊢
        omega
  show runFrom [authMiddleware, adminMiddleware, final] 0 (startWorld db logged req) = _
  rw [runFrom_through authMiddleware [adminMiddleware, final] 0 _ wa h0 hstep, hmid,
    Option.map_map]
  · rfl
  · intro wr hwr
    rw [hmid] at hwr
    cases hf : final (fun w1 => some w1.bump) wa.bump.bump with
    | none => rw [hf] at hwr; cases hwr
    | some wc =>
      rw [hf] at hwr
      have hk := hfinal _ _ _ hf
      have : wr = wc.bump.bump := (Option.some.inj hwr).symm
      subst this
      simp [World.bump] at hk ⊢
      omega

/-- A handler that answers with one `c.JSON` keeps the index. -/
theorem keepsIndex_JSON (code : Nat) (body : Value) :
    KeepsIndex (fun _ w => some (w.JSON code body)) := by
  intro next w w' h
  have : w' = w.JSON code body := (Option.some.inj h).symm
  subst this
  exact le_refl _

theorem runsBeforeFinalB_sound (a : HandlerId) :
    ∀ hs : List HandlerId, runsBeforeFinalB a hs = true → RunsBeforeFinal a hs := by
  intro hs
  induction hs with
  | nil => intro h; cases h
  | cons x rest ih =>
    intro h
    simp only [runsBeforeFinalB, Bool.or_eq_true, Bool.and_eq_true, beq_iff_eq,
      Bool.not_eq_true', List.isEmpty_eq_false] at h
    rcases h with ⟨hx, hne⟩ | h
    · refine ⟨[], rest.dropLast, rest.getLast hne, ?_⟩
      rw [List.dropLast_append_getLast hne, hx]
      rfl
    · obtain ⟨pre, mid, final, e⟩ := ih h
      exact ⟨x :: pre, mid, final, by rw [e]; rfl⟩

theorem runsInOrderB_sound (a b : HandlerId) :
    ∀ hs : List HandlerId, runsInOrderB a b hs = true → RunsInOrderBeforeFinal a b hs := by
  intro hs
  induction hs with
  | nil => intro h; cases h
  | cons x rest ih =>
    intro h
    simp only [runsInOrderB, Bool.or_eq_true, Bool.and_eq_true, beq_iff_eq] at h
    rcases h with ⟨hx, hb⟩ | h
    · obtain ⟨mid, post, final, e⟩ := runsBeforeFinalB_sound b rest hb
      exact ⟨[], mid, post, final, by rw [e, hx]; rfl⟩
    · obtain ⟨pre, mid, post, final, e⟩ := ih h
      exact ⟨x :: pre, mid, post, final, by rw [e]; rfl⟩

theorem runsBeforeFinal_behind (a : HandlerId) (engine hs : List HandlerId)
    (h : RunsBeforeFinal a hs) : RunsBeforeFinal a (engine ++ hs) := by
  obtain ⟨pre, mid, final, e⟩ := h
  exact ⟨engine ++ pre, mid, final, by rw [e, List.append_assoc]⟩

theorem runsInOrder_behind (a b : HandlerId) (engine hs : List HandlerId)
    (h : RunsInOrderBeforeFinal a b hs) : RunsInOrderBeforeFinal a b (engine ++ hs) := by
  obtain ⟨pre, mid, post, final, e⟩ := h
  exact ⟨engine ++ pre, mid, post, final, by rw [e, List.append_assoc]⟩

/-- The engine middleware comes first in every chain and touches neither the
method nor the path of a route. -/
theorem setupRoutes_rootGroup (engine : List HandlerId) :
    setupRoutes (rootGroup engine) = (setupRoutes (rootGroup [])).map (Route.behind engine) := by
  simp [setupRoutes, rootGroup, Route.behind, RouterGroup.Static, RouterGroup.Group,
    RouterGroup.GET, RouterGroup.POST, RouterGroup.PUT, RouterGroup.DELETE, RouterGroup.HEAD,
    RouterGroup.handle]

theorem chainOf_behind (engine : List HandlerId) (method path : String) :
    ∀ routes : List Route, chainOf (routes.map (Route.behind engine)) method path =
      (chainOf routes method path).map (fun hs => engine ++ hs) := by
  intro routes
  induction routes with
  | nil => rfl
  | cons r rest ih =>
    unfold chainOf at ih ⊢
    by_cases h : r.method = method ∧ r.path = path
    · simp [List.find?, Route.behind, h]
    · simpa [List.find?, Route.behind, h] using ih

/-! ## Theorems -/

/-- C1: for every request, whatever its Authorization header, `authMiddleware`
hands to the next handler a context whose `user_id` is the integer 1 and whose
`username` is "admin"; it leaves the index (no abort), the response writes, the
request and `DB` as they were; the identity is the same for any two requests. -/
theorem authMiddleware_fixed_identity (w₁ w₂ : World) :
    (∃ w', (∀ next, authMiddleware next w₁ = next w') ∧
      w'.Get "user_id" = some (Value.int 1) ∧ w'.Get "username" = some (Value.str "admin") ∧
      w'.ctx.index = w₁.ctx.index ∧ (w'.IsAborted ↔ w₁.IsAborted) ∧
      w'.ctx.written = w₁.ctx.written ∧ w'.ctx.request = w₁.ctx.request ∧ w'.DB = w₁.DB) ∧
    (authMiddleware some w₁).map identity = (authMiddleware some w₂).map identity := by
  obtain ⟨hi, hw, hr, hd⟩ := afterAuth_ctx w₁
  refine ⟨⟨afterAuth w₁, fun next => authMiddleware_eq next w₁, afterAuth_user_id w₁,
    afterAuth_username w₁, hi, ?_, hw, hr, hd⟩, ?_⟩
  · unfold World.IsAborted
    rw [hi]
  · simp only [authMiddleware_eq, Option.map_some', identity, afterAuth_user_id,
      afterAuth_username]

/-- C2: on every context `handleAllocateIPAddress` answers 200 with the body
`message: 分配成功` and `handleReleaseIPAddress` 200 with `message: 释放成功`;
each only appends that answer to the response and leaves the keys, the index,
the request, `DB` and the log as they were, so the answers of any two runs
are equal. -/
theorem ip_handlers_static_answer (next₁ next₂ : World → Option World) (w₁ w₂ : World) :
    (∃ w', handleAllocateIPAddress next₁ w₁ = some w' ∧
      w'.ctx.written = w₁.ctx.written ++
        [Response.json 200 (Value.obj [("message", Value.str "分配成功")])] ∧
      w'.ctx.keys = w₁.ctx.keys ∧ w'.ctx.index = w₁.ctx.index ∧
      w'.ctx.request = w₁.ctx.request ∧ w'.DB = w₁.DB ∧ w'.logged = w₁.logged) ∧
    (∃ w', handleReleaseIPAddress next₁ w₁ = some w' ∧
      w'.ctx.written = w₁.ctx.written ++
        [Response.json 200 (Value.obj [("message", Value.str "释放成功")])] ∧
      w'.ctx.keys = w₁.ctx.keys ∧ w'.ctx.index = w₁.ctx.index ∧
      w'.ctx.request = w₁.ctx.request ∧ w'.DB = w₁.DB ∧ w'.logged = w₁.logged) ∧
    (handleAllocateIPAddress next₁ w₁).bind lastJSON =
      (handleAllocateIPAddress next₂ w₂).bind lastJSON ∧
    (handleReleaseIPAddress next₁ w₁).bind lastJSON =
      (handleReleaseIPAddress next₂ w₂).bind lastJSON := by
  refine ⟨⟨_, rfl, rfl, rfl, rfl, rfl, rfl, rfl⟩, ⟨_, rfl, rfl, rfl, rfl, rfl, rfl, rfl⟩, ?_, ?_⟩
  · simp only [handleAllocateIPAddress, Option.some_bind, lastJSON_JSON]
  · simp only [handleReleaseIPAddress, Option.some_bind, lastJSON_JSON]

/-- C4, as stated, fails: `PUT /api/ip-pool/1/release` is answered 200
`释放成功`, and so is the same request when it follows at once, on the address
that has just been released. -/
theorem release_twice_reports_success :
    (serve [authMiddleware, handleReleaseIPAddress] none [] (releaseRequest "1")).bind
      lastJSON = some (200, Value.obj [("message", Value.str "释放成功")]) ∧
    ((serve [authMiddleware, handleReleaseIPAddress] none [] (releaseRequest "1")).bind
      (fun w => serve [authMiddleware, handleReleaseIPAddress] w.DB w.logged
        (releaseRequest "1"))).bind
      lastJSON = some (200, Value.obj [("message", Value.str "释放成功")]) :=
  ⟨rfl, rfl⟩

/-- C4, amended: the route `PUT /api/ip-pool/:id/release` runs `authMiddleware`
and `handleReleaseIPAddress`; for every request and state the answer is the one
response 200 `释放成功`, never an error, and `DB` is left as it was. -/
theorem release_always_reports_success (engine : List HandlerId) (db : Option String)
    (logged : List String) (req : Request) :
    chainOf (setupRoutes (rootGroup engine)) "PUT" "/api/ip-pool/:id/release" =
      some (engine ++ [HandlerId.fn Func.authMiddleware,
        HandlerId.fn Func.handleReleaseIPAddress]) ∧
    ∃ w, serve [authMiddleware, handleReleaseIPAddress] db logged req = some w ∧
      w.ctx.written = [Response.json 200 (Value.obj [("message", Value.str "释放成功")])] ∧
      w.DB = db := by
  constructor
  · rw [setupRoutes_rootGroup, chainOf_behind]
    have : chainOf (setupRoutes (rootGroup [])) "PUT" "/api/ip-pool/:id/release" =
        some [HandlerId.fn Func.authMiddleware, HandlerId.fn Func.handleReleaseIPAddress] := by
      decide
    rw [this]
    rfl
  · obtain ⟨_, hw, _, hd⟩ := afterAuth_ctx (startWorld db logged req)
    refine ⟨_, serve_auth_final handleReleaseIPAddress (keepsIndex_JSON _ _) db logged req, ?_, ?_⟩
    · show (afterAuth (startWorld db logged req)).ctx.written ++ _ = _
      rw [hw]
      rfl
    · exact hd

/-- C5: `handleGetDashboardData` answers 200 with a body whose `ip_usage` list
has three entries, and in each of them `used + free = total`. -/
theorem dashboard_ip_usage_used_plus_free (next : World → Option World) (w : World) :
    ∃ w' body, handleGetDashboardData next w = some w' ∧ lastJSON w' = some (200, body) ∧
      (ipUsageEntries body).length = 3 ∧
      ∀ e ∈ ipUsageEntries body, ∃ t u f : Int,
        e.intField "total" = some t ∧ e.intField "used" = some u ∧
        e.intField "free" = some f ∧ u + f = t := by
  refine ⟨_, dashboardData, rfl, lastJSON_JSON _ _ _, rfl, ?_⟩
  intro e he
  have hl : ipUsageEntries dashboardData =
      [Value.obj [("subnet", Value.str "192.168.1.0/24"), ("total", Value.int 254),
        ("used", Value.int 128), ("free", Value.int 126)],
       Value.obj [("subnet", Value.str "192.168.2.0/24"), ("total", Value.int 254),
        ("used", Value.int 95), ("free", Value.int 159)],
       Value.obj [("subnet", Value.str "192.168.3.0/24"), ("total", Value.int 254),
        ("used", Value.int 230), ("free", Value.int 24)]] := rfl
  rw [hl] at he
  simp only [List.mem_cons, List.mem_singleton, List.not_mem_nil, or_false] at he
  rcases he with rfl | rfl | rfl
  · exact ⟨254, 128, 126, rfl, rfl, rfl, rfl⟩
  · exact ⟨254, 95, 159, rfl, rfl, rfl, rfl⟩
  · exact ⟨254, 230, 24, rfl, rfl, rfl, rfl⟩

/-- C6, as stated, fails: the body that `GET /api/reports/ip-usage` answers
with has no field `total`, `used`, `free` or `utilization_percent`. -/
theorem ip_usage_report_has_no_fields :
    ((serve [authMiddleware, handleGetIPUsage] none []
        (plainRequest "GET" "/api/reports/ip-usage")).bind lastJSON).map
      (fun r => (r.1, r.2.field "total", r.2.field "used", r.2.field "free",
        r.2.field "utilization_percent")) = some (200, none, none, none, none) :=
  rfl

/-- C6, amended: the route `GET /api/reports/ip-usage` runs `authMiddleware` and
`handleGetIPUsage`; for every request the answer is 200 with the empty object,
which has no field at all. -/
theorem ip_usage_report_is_empty_object (engine : List HandlerId) (db : Option String)
    (logged : List String) (req : Request) :
    chainOf (setupRoutes (rootGroup engine)) "GET" "/api/reports/ip-usage" =
      some (engine ++ [HandlerId.fn Func.authMiddleware, HandlerId.fn Func.handleGetIPUsage]) ∧
    ∃ w body, serve [authMiddleware, handleGetIPUsage] db logged req = some w ∧
      w.ctx.written = [Response.json 200 body] ∧ body = Value.obj [] ∧
      ∀ k, body.field k = none := by
  constructor
  · rw [setupRoutes_rootGroup, chainOf_behind]
    have : chainOf (setupRoutes (rootGroup [])) "GET" "/api/reports/ip-usage" =
        some [HandlerId.fn Func.authMiddleware, HandlerId.fn Func.handleGetIPUsage] := by
      decide
    rw [this]
    rfl
  · obtain ⟨_, hw, _, _⟩ := afterAuth_ctx (startWorld db logged req)
    refine ⟨_, Value.obj [],
      serve_auth_final handleGetIPUsage (keepsIndex_JSON _ _) db logged req, ?_, rfl,
      fun _ => rfl⟩
    show (afterAuth (startWorld db logged req)).ctx.written ++ _ = _
    rw [hw]
    rfl

/-- C7: in each of the three `ip_usage` entries that `handleGetDashboardData`
answers with, the subnet string has prefix length `p = 24` and
`total = 2 ^ (32 - p) - 2 = 254`. -/
theorem dashboard_ip_usage_total_from_prefix (next : World → Option World) (w : World) :
    ∃ w' body, handleGetDashboardData next w = some w' ∧ lastJSON w' = some (200, body) ∧
      (ipUsageEntries body).length = 3 ∧
      ∀ e ∈ ipUsageEntries body, ∃ (s : String) (p : Nat) (t : Int),
        e.strField "subnet" = some s ∧ cidrPrefixLen s = some p ∧
        e.intField "total" = some t ∧ t = (2 : Int) ^ (32 - p) - 2 ∧ p = 24 ∧ t = 254 := by
  refine ⟨_, dashboardData, rfl, lastJSON_JSON _ _ _, rfl, ?_⟩
  intro e he
  have hl : ipUsageEntries dashboardData =
      [Value.obj [("subnet", Value.str "192.168.1.0/24"), ("total", Value.int 254),
        ("used", Value.int 128), ("free", Value.int 126)],
       Value.obj [("subnet", Value.str "192.168.2.0/24"), ("total", Value.int 254),
        ("used", Value.int 95), ("free", Value.int 159)],
       Value.obj [("subnet", Value.str "192.168.3.0/24"), ("total", Value.int 254),
        ("used", Value.int 230), ("free", Value.int 24)]] := rfl
  rw [hl] at he
  simp only [List.mem_cons, List.mem_singleton, List.not_mem_nil, or_false] at he
  rcases he with rfl | rfl | rfl
  · exact ⟨"192.168.1.0/24", 24, 254, rfl, by decide, rfl, by decide, rfl, rfl⟩
  · exact ⟨"192.168.2.0/24", 24, 254, rfl, by decide, rfl, by decide, rfl, rfl⟩
  · exact ⟨"192.168.3.0/24", 24, 254, rfl, by decide, rfl, by decide, rfl, rfl⟩

/-- C8: on a context whose `user_id` is absent or an integer, `adminMiddleware`
answers 403 with the Forbidden body and aborts exactly when `user_id` is
absent or not 1 (then no later handler of the chain runs); when it is 1 it
writes nothing and calls the next handler. -/
theorem adminMiddleware_forbidden_iff (w : World)
    (h : w.Get "user_id" = none ∨ ∃ n : Int, w.Get "user_id" = some (Value.int n)) :
    ((∀ next, adminMiddleware next w = some (forbidden w)) ↔
      (w.Get "user_id" = none ∨ w.Get "user_id" ≠ some (Value.int 1))) ∧
    (w.Get "user_id" = some (Value.int 1) → ∀ next, adminMiddleware next w = next w) ∧
    (forbidden w).ctx.written =
      w.ctx.written ++ [Response.json 403
        (Value.obj [("error", Value.str "Forbidden"),
          ("message", Value.str "没有权限执行此操作")])] ∧
    (forbidden w).IsAborted ∧
    (∀ (rest : List HandlerFunc) (i : Int), w.ctx.index = i → i + 1 + rest.length ≤ 63 →
      (w.Get "user_id" = none ∨ w.Get "user_id" ≠ some (Value.int 1)) →
      runFrom (adminMiddleware :: rest) i w = some (forbidden w).bump) := by
  have key : (w.Get "user_id" = none ∨ w.Get "user_id" ≠ some (Value.int 1)) →
      ∀ next, adminMiddleware next w = some (forbidden w) := by
    intro hc next
    rcases h with h0 | ⟨n, hn⟩
    · simp [adminMiddleware, h0, forbidden]
    · have hn1 : n ≠ 1 := by
        rcases hc with hc | hc
        · rw [hn] at hc; cases hc
        · intro e; apply hc; rw [hn, e]
      simp [adminMiddleware, hn, hn1, forbidden]
  have pass : w.Get "user_id" = some (Value.int 1) → ∀ next, adminMiddleware next w = next w := by
    intro h1 next
    simp [adminMiddleware, h1]
  refine ⟨⟨?_, key⟩, pass, ?_, ?_, ?_⟩
  · intro hall
    by_contra hc
    push_neg at hc
    have h1 := pass hc.2 (fun _ => none)
    rw [hall] at h1
    cases h1
  · rfl
  · simp [forbidden, World.IsAborted, World.Abort]
  · intro rest i hi hlen hc
    rw [runFrom, if_pos hi, key hc]
    apply runFrom_passed
    simp [forbidden, World.bump, World.Abort, abortIndex]
    omega

/-- Witness of C8: a context whose `user_id` is the integer 2 gets the 403. -/
theorem adminMiddleware_forbidden_iff_witness :
    ((worldWithKeys [("user_id", Value.int 2)]).Get "user_id" = none ∨
      ∃ n : Int, (worldWithKeys [("user_id", Value.int 2)]).Get "user_id" = some (Value.int n)) ∧
    (∀ next, adminMiddleware next (worldWithKeys [("user_id", Value.int 2)]) =
      some (forbidden (worldWithKeys [("user_id", Value.int 2)]))) :=
  ⟨Or.inr ⟨2, rfl⟩,
   ((adminMiddleware_forbidden_iff (worldWithKeys [("user_id", Value.int 2)])
      (Or.inr ⟨2, rfl⟩)).1).2 (Or.inr (by
        intro e
        have : (Value.int 2) = Value.int 1 := Option.some.inj e
        exact absurd (Value.int.inj this) (by decide)))⟩

/-- C9: on every request the chain `authMiddleware`, `adminMiddleware`, `final`
runs `final`, once, on a context that carries `user_id` 1 and no response:
`adminMiddleware` after `authMiddleware` neither panics in `userID.(int)` nor
takes the 403 branch, whatever the context was before. -/
theorem auth_then_admin_reaches_final (final : HandlerFunc) (hfinal : KeepsIndex final)
    (db : Option String) (logged : List String) (req : Request) :
    (∀ (next : World → Option World) (w : World),
      authMiddleware (adminMiddleware next) w = authMiddleware next w) ∧
    ∃ w : World, w.Get "user_id" = some (Value.int 1) ∧ w.ctx.written = [] ∧
      w.ctx.index = 2 ∧ w.ctx.request = req ∧ w.DB = db ∧
      serve [authMiddleware, adminMiddleware, final] db logged req =
        (final (fun w1 => some w1.bump) w).map (fun w' => w'.bump.bump.bump) := by
  obtain ⟨hi, hw, hr, hd⟩ := afterAuth_ctx (startWorld db logged req)
  refine ⟨admin_after_auth, (afterAuth (startWorld db logged req)).bump.bump, ?_, ?_, ?_, ?_, ?_,
    serve_auth_admin_final final hfinal db logged req⟩
  · rw [get_bump, get_bump]
    exact afterAuth_user_id _
  · show (afterAuth (startWorld db logged req)).ctx.written = []
    rw [hw]
    rfl
  · show (afterAuth (startWorld db logged req)).ctx.index + 1 + 1 = 2
    rw [hi]
    rfl
  · show (afterAuth (startWorld db logged req)).ctx.request = req
    rw [hr]
    rfl
  · exact hd

/-- Witness of C9: the chain of `GET /api/users/`, whose last handler is
`handleListUsers`, answers 200 with the empty user list. -/
theorem auth_then_admin_reaches_final_witness :
    KeepsIndex handleListUsers ∧
    (serve [authMiddleware, adminMiddleware, handleListUsers] none []
        (plainRequest "GET" "/api/users/")).bind lastJSON =
      some (200, Value.obj [("total", Value.int 0), ("data", Value.arr [])]) := by
  refine ⟨keepsIndex_JSON _ _, ?_⟩
  obtain ⟨w, _, _, _, _, _, hs⟩ := (auth_then_admin_reaches_final handleListUsers
    (keepsIndex_JSON _ _) none [] (plainRequest "GET" "/api/users/")).2
  rw [hs]
  simp only [handleListUsers, Option.map_some', Option.some_bind]
  exact lastJSON_JSON _ _ _

/-- C10: in the route table of `setupRoutes`, behind any engine middleware,
every route but `GET /`, `GET /login`, `POST /api/auth/login`,
`POST /api/auth/logout` and the `/static` files runs `authMiddleware` before its
last handler, and every route under `/api/users`, `/api/roles` or `/api/logs`
runs `authMiddleware`, later `adminMiddleware`, and both before its last
handler. -/
theorem setupRoutes_guarded (engine : List HandlerId) (r : Route)
    (hr : r ∈ setupRoutes (rootGroup engine)) :
    (¬ r.isPublic → RunsBeforeFinal (HandlerId.fn Func.authMiddleware) r.handlers) ∧
    (r.isAdminArea → RunsInOrderBeforeFinal (HandlerId.fn Func.authMiddleware)
      (HandlerId.fn Func.adminMiddleware) r.handlers) := by
  rw [setupRoutes_rootGroup, List.mem_map] at hr
  obtain ⟨r0, hr0, rfl⟩ := hr
  have base : ∀ r0 ∈ setupRoutes (rootGroup []),
      (¬ r0.isPublic → runsBeforeFinalB (HandlerId.fn Func.authMiddleware) r0.handlers = true) ∧
      (r0.isAdminArea → runsInOrderB (HandlerId.fn Func.authMiddleware)
        (HandlerId.fn Func.adminMiddleware) r0.handlers = true) := by
    decide
  obtain ⟨h1, h2⟩ := base r0 hr0
  constructor
  · intro hp
    exact runsBeforeFinal_behind _ _ _ (runsBeforeFinalB_sound _ _ (h1 hp))
  · intro ha
    exact runsInOrder_behind _ _ _ _ (runsInOrderB_sound _ _ _ (h2 ha))

/-- Witness of C10: `GET /api/users/` in the engine of `main`. -/
theorem setupRoutes_guarded_witness :
    ({ method := "GET", path := "/api/users/",
       handlers := [HandlerId.external "gin.Logger", HandlerId.external "gin.Recovery",
         HandlerId.external "cors", HandlerId.fn Func.authMiddleware,
         HandlerId.fn Func.adminMiddleware, HandlerId.fn Func.handleListUsers] } : Route) ∈
      setupRoutes mainRouter ∧
    RunsInOrderBeforeFinal (HandlerId.fn Func.authMiddleware) (HandlerId.fn Func.adminMiddleware)
      [HandlerId.external "gin.Logger", HandlerId.external "gin.Recovery",
        HandlerId.external "cors", HandlerId.fn Func.authMiddleware,
        HandlerId.fn Func.adminMiddleware, HandlerId.fn Func.handleListUsers] :=
  ⟨by decide,
   (setupRoutes_guarded mainRouter.Handlers
      { method := "GET", path := "/api/users/",
        handlers := [HandlerId.external "gin.Logger", HandlerId.external "gin.Recovery",
          HandlerId.external "cors", HandlerId.fn Func.authMiddleware,
          HandlerId.fn Func.adminMiddleware, HandlerId.fn Func.handleListUsers] }
      (by decide)).2 (by decide)⟩

end Cmdb
